import Mathlib

/-!
Shallow embedding of the core of `lint-workflow/lint.py`: the reference
parsing helpers, the registry client (`get_github_api_response`,
`action_repo_exists`, `get_action_update`), the rule engine (`lint`) and
the severity aggregator (`get_max_error_level`).

Python strings are modelled as Lean `String` (ASCII payloads), Python
exceptions as `Except Unit`, and the remote HTTP transport as an oracle
`api : String → Resp` mapping a URL to the response the registry would
return for it.  JSON payloads are modelled as an inductive `Json` value
(the result of `json.loads`).
-/

set_option autoImplicit false

/-- Prefix test on character lists (`needle` is a prefix of `hay`). -/
def isPref : List Char → List Char → Bool
  | [], _ => true
  | _ :: _, [] => false
  | a :: as, b :: bs => a == b && isPref as bs

/-- Substring test on character lists: some suffix of `hay` starts with `needle`. -/
def hasSub (needle : List Char) : List Char → Bool
  | [] => needle.isEmpty
  | c :: rest => isPref needle (c :: rest) || hasSub needle rest

/-- Python's `needle in hay` substring containment on strings. -/
def strIn (needle hay : String) : Bool :=
  hasSub needle.data hay.data

/-- Python's `s.split(sep)` (single-character separator, no maxsplit) on
character lists.  Always returns at least one part. -/
def pySplitCh (sep : Char) : List Char → List (List Char)
  | [] => [[]]
  | c :: cs =>
    if c == sep then [] :: pySplitCh sep cs
    else
      match pySplitCh sep cs with
      | [] => [[c]]
      | p :: ps => (c :: p) :: ps

/-- Python's `s.split(sep, maxsplit)` (single-character separator) on
character lists: at most `maxs` splits are performed. -/
def pySplitChN (sep : Char) : Nat → List Char → List (List Char)
  | _, [] => [[]]
  | 0, l => [l]
  | n + 1, c :: cs =>
    if c == sep then [] :: pySplitChN sep n cs
    else
      match pySplitChN sep (n + 1) cs with
      | [] => [[c]]
      | p :: ps => (c :: p) :: ps

/-- Python's `s.split(sep)` on strings. -/
def pySplit (sep : Char) (s : String) : List String :=
  (pySplitCh sep s.data).map String.mk

/-- Python's `s.split(sep, maxsplit)` on strings. -/
def pySplitN (sep : Char) (maxs : Nat) (s : String) : List String :=
  (pySplitChN sep maxs s.data).map String.mk

/-- The split used by the registry functions (`lint.py` lines 95 and 145):
`path, *hash = action_id.split("@")`.  It never fails: `path` is the text
before the first `@` and the remaining `@`-separated parts form a list. -/
def registrySplit (aid : String) : String × List String :=
  match pySplit '@' aid with
  | [] => ("", [])
  | p :: hs => (p, hs)

/-- The split used by the rule engine (`lint.py` line 275):
`path, hash = step["uses"].split("@")`.  The two-name unpacking succeeds
exactly when the reference contains exactly one `@`; otherwise Python
raises `ValueError`, modelled as `none`. -/
def usesSplit (u : String) : Option (String × String) :=
  match pySplit '@' u with
  | [p, h] => some (p, h)
  | _ => none

/-- ASCII whitespace stripped by Python's `int(str, base)`. -/
def isPyWhitespace (c : Char) : Bool :=
  c == ' ' || c == '\t' || c == '\n' || c == '\x0d' || c == '\x0b' || c == '\x0c'

/-- Hexadecimal digits accepted by Python's `int(str, 16)` (both cases). -/
def pyIsHexDigit (c : Char) : Bool :=
  ('0' ≤ c && c ≤ '9') || ('a' ≤ c && c ≤ 'f') || ('A' ≤ c && c ≤ 'F')

/-- Digit tail of a Python integer literal: digits with single underscores
strictly between digits. -/
def hexTail : List Char → Bool
  | [] => true
  | '_' :: c :: cs => pyIsHexDigit c && hexTail cs
  | '_' :: [] => false
  | c :: cs => pyIsHexDigit c && hexTail cs

/-- Nonempty digit run with single underscores between digits. -/
def hexDigits : List Char → Bool
  | [] => false
  | c :: cs => pyIsHexDigit c && hexTail cs

/-- Digit part after an optional sign: an optional `0x`/`0X` prefix (an
underscore may directly follow the prefix), then digits. -/
def hexAfterSign : List Char → Bool
  | '0' :: 'x' :: rest =>
    (match rest with
     | '_' :: r2 => hexDigits r2
     | _ => hexDigits rest)
  | '0' :: 'X' :: rest =>
    (match rest with
     | '_' :: r2 => hexDigits r2
     | _ => hexDigits rest)
  | l => hexDigits l

/-- Strip a single leading `+` or `-` sign. -/
def pyStripSign : List Char → List Char
  | '+' :: r => r
  | '-' :: r => r
  | l => l

/-- Whether Python's `int(s, 16)` succeeds (`lint.py` line 295): surrounding
whitespace, an optional sign, an optional `0x` prefix and underscores
between digits are all accepted, and hex letters of either case count. -/
def pyIntHexOk (s : String) : Bool :=
  let l := ((s.data.dropWhile isPyWhitespace).reverse.dropWhile isPyWhitespace).reverse
  hexAfterSign (pyStripSign l)

/-- JSON values, the result of `json.loads` on a registry payload. -/
inductive Json where
  | null
  | str (s : String)
  | num (n : Int)
  | arr (items : List Json)
  | obj (fields : List (String × Json))

/-- Python `value[key]` on a JSON object; `none` models the lookup raising. -/
def Json.get? : Json → String → Option Json
  | .obj fields, key => (fields.find? (fun p => p.fst == key)).map (fun p => p.snd)
  | _, _ => none

/-- Python `value[n]` on a JSON array; `none` models the lookup raising. -/
def Json.idx? : Json → Nat → Option Json
  | .arr items, n => items[n]?
  | _, _ => none

/-- Python `==` between a JSON value and a `str`: true only for an equal
JSON string (values of other shapes never equal a string). -/
def Json.eqStr : Json → String → Bool
  | .str s, t => s == t
  | _, _ => false

/-- Rendering of a JSON value interpolated into an f-string; the registry
payloads interpolated by the source are strings or numbers. -/
def Json.fmt : Json → String
  | .str s => s
  | .num n => toString n
  | _ => ""

/-- An HTTP response from the registry: status code, reason phrase and
parsed JSON body (`lint.py` treats `response.status`, `response.reason`
and `response.data`). -/
structure Resp where
  status : Nat
  reason : String
  data : Json

/-- The transport oracle: what the registry returns for each URL. -/
abbrev Api := String → Resp

/-- Embedding of `get_github_api_response` (`lint.py` lines 59-81): issue
the request and return `None` (here `none`) on a rate-limited `403` or an
`Unauthorized` `401`, otherwise the response itself. -/
def get_github_api_response (api : Api) (url : String) : Option Resp :=
  let r := api url
  if r.status == 403 && r.reason == "rate limit exceeded" then none
  else if r.status == 401 && r.reason == "Unauthorized" then none
  else some r

/-- The repository-metadata URL consulted by `action_repo_exists`
(`lint.py` lines 97-103): a path containing the substring `bitwarden` is
truncated to its first two `/`-separated segments (an `IndexError`, when a
second segment is missing, is modelled as `.error`); any other path is
used whole. -/
def action_repo_url (path : String) : Except Unit String :=
  if strIn "bitwarden" path then
    let path_list := pySplitN '/' 2 path
    match path_list[0]?, path_list[1]? with
    | some p0, some p1 => .ok s!"https://api.github.com/repos/{p0}/{p1}"
    | _, _ => .error ()
  else
    .ok s!"https://api.github.com/repos/{path}"

/-- Embedding of `action_repo_exists` (`lint.py` lines 84-113): local
references (`"./"` anywhere in the id) are `True` without any call;
otherwise the repository-metadata URL is consulted and only an explicit
`404` yields `False` — a failed call (`none`) or any other status yields
`True`. -/
def action_repo_exists (api : Api) (action_id : String) : Except Unit Bool :=
  if strIn "./" action_id then .ok true
  else do
    let url ← action_repo_url (registrySplit action_id).1
    match get_github_api_response api url with
    | none => .ok true
    | some r => .ok (if r.status == 404 then false else true)

/-- The update URL returned when the resolved latest commit `sha` is not
among the `@`-separated revision parts (`sha not in hash`, `lint.py`
lines 185-186). -/
def sha_update_url (path : String) (hash : List String) (sha : Json) : Option String :=
  if hash.all (fun h => !(Json.eqStr sha h)) then
    some s!"https://github.com/{path}/commit/{sha.fmt}"
  else none

/-- Embedding of `get_action_update` (`lint.py` lines 135-186).  Local
references return `None` with no call.  A `bitwarden`-substring path uses
the commit-history-by-path route; other paths use the
latest-release → tag-reference → (optional annotated-tag follow-up)
chain.  Every failed call (`none` from `get_github_api_response`) returns
`None` (no update); a missing JSON field or list index models the
uncaught Python exception as `.error`. -/
def get_action_update (api : Api) (action_id : String) : Except Unit (Option String) :=
  if strIn "./" action_id then .ok none
  else
    let path := (registrySplit action_id).1
    let hash := (registrySplit action_id).2
    if strIn "bitwarden" path then
      let path_list := pySplitN '/' 2 path
      match path_list[0]?, path_list[1]?, path_list[2]? with
      | some p0, some p1, some p2 =>
        match get_github_api_response api
            s!"https://api.github.com/repos/{p0}/{p1}/commits?path={p2}" with
        | none => .ok none
        | some r =>
          match (r.data.idx? 0).bind (fun j => j.get? "sha") with
          | none => .error ()
          | some sha =>
            if hash.all (fun h => !(Json.eqStr sha h)) then
              .ok (some s!"https://github.com/{p0}/{p1}/commit/{sha.fmt}")
            else .ok none
      | _, _, _ => .error ()
    else
      match get_github_api_response api
          s!"https://api.github.com/repos/{path}/releases/latest" with
      | none => .ok none
      | some r =>
        match r.data.get? "tag_name" with
        | none => .error ()
        | some tagJ =>
          match get_github_api_response api
              s!"https://api.github.com/repos/{path}/git/ref/tags/{tagJ.fmt}" with
          | none => .ok none
          | some r2 =>
            match (r2.data.get? "object").bind (fun j => j.get? "type") with
            | none => .error ()
            | some ty =>
              if Json.eqStr ty "commit" then
                match (r2.data.get? "object").bind (fun j => j.get? "sha") with
                | none => .error ()
                | some sha => .ok (sha_update_url path hash sha)
              else
                match (r2.data.get? "object").bind (fun j => j.get? "url") with
                | none => .error ()
                | some urlJ =>
                  match get_github_api_response api urlJ.fmt with
                  | none => .ok none
                  | some r3 =>
                    match (r3.data.get? "object").bind (fun j => j.get? "sha") with
                    | none => .error ()
                    | some sha => .ok (sha_update_url path hash sha)

/-- A linting problem (`LintFinding`, `lint.py` lines 28-33): description
text and a level string (`"warning"` or `"error"`). -/
structure LintFinding where
  description : String
  level : String

/-- The `PROBLEM_LEVELS` dict (`lint.py` lines 9-12); an absent key models
the Python `KeyError` as `none`. -/
def PROBLEM_LEVELS (level : String) : Option Nat :=
  if level = "warning" then some 1
  else if level = "error" then some 2
  else none

/-- Python's `max(findings, key=...)` over a running best element: a later
element replaces the current best only when its key is strictly greater.
`none` models a `KeyError` from an unknown level. -/
def pyMaxByLevel (best : LintFinding) : List LintFinding → Option LintFinding
  | [] => some best
  | f :: fs => do
    let kb ← PROBLEM_LEVELS best.level
    let kf ← PROBLEM_LEVELS f.level
    pyMaxByLevel (if kb < kf then f else best) fs

/-- Embedding of `get_max_error_level` (`lint.py` lines 36-42): `0` for an
empty list, otherwise the `PROBLEM_LEVELS` value of the maximal finding. -/
def get_max_error_level (findings : List LintFinding) : Option Nat :=
  if findings.length = 0 then some 0
  else
    match findings with
    | [] => some 0
    | f :: fs => do
      let m ← pyMaxByLevel f fs
      PROBLEM_LEVELS m.level

/-- A workflow step (§3 of the spec): optional `name`, `uses`, `run`. -/
structure Step where
  name : Option String
  uses : Option String
  run : Option String

/-- A workflow job: optional `name`, `runs-on`, `env` mapping and `steps`. -/
structure Job where
  name : Option String
  runs_on : Option String
  env : Option (List (String × String))
  steps : Option (List Step)

/-- A parsed workflow document: optional `name` and `jobs` mapping
(insertion-ordered, as a Python dict). -/
structure Workflow where
  name : Option String
  jobs : Option (List (String × Job))

/-- Workflow-level name checks (`lint.py` lines 198-208): a missing `name`
warns; otherwise an uncapitalized first character warns (`elif`, so the
two are mutually exclusive).  `name[0]` on an empty name models the
Python `IndexError` as `.error`. -/
def workflow_name_findings (w : Workflow) : Except Unit (List LintFinding) :=
  match w.name with
  | none => .ok [⟨"Name key missing for workflow.", "warning"⟩]
  | some n =>
    match n.data with
    | [] => .error ()
    | c :: _ =>
      if c.isUpper then .ok []
      else .ok [⟨s!"Name value for workflow is not capitalized. [{n}]", "warning"⟩]

/-- Runner pinning check (`lint.py` lines 216-224): `job.get("runs-on", "")`
containing `-latest` warns. -/
def runner_findings (j : Job) : List LintFinding :=
  let runner := j.runs_on.getD ""
  if strIn "-latest" runner then
    [⟨s!"Runner version is set to \x27{runner}\x27, but needs to be pinned to a version.", "warning"⟩]
  else []

/-- Job-level name checks (`lint.py` lines 227-240), mirroring the
workflow-level `if`/`elif` pair. -/
def job_name_findings (job_key : String) (j : Job) : Except Unit (List LintFinding) :=
  match j.name with
  | none => .ok [⟨s!"Name key missing for job key \x27{job_key}\x27.", "warning"⟩]
  | some n =>
    match n.data with
    | [] => .error ()
    | c :: _ =>
      if c.isUpper then .ok []
      else .ok [⟨s!"Name value of job key \x27{job_key}\x27 is not capitalized. [{n}]", "warning"⟩]

/-- Env-variable prefix check over the keys of `job["env"]` (`lint.py`
lines 244-251): each key not starting with `_` gets its own warning;
`k[0]` on an empty key models the Python `IndexError` as `.error`. -/
def env_keys_findings (job_key : String) : List (String × String) → Except Unit (List LintFinding)
  | [] => .ok []
  | (k, _) :: rest =>
    match k.data with
    | [] => .error ()
    | c :: _ => do
      let more ← env_keys_findings job_key rest
      if c == '_' then .ok more
      else .ok (⟨s!"Environment variable \x27{k}\x27 of job key \x27{job_key}\x27 does not start with an underscore.", "warning"⟩ :: more)

/-- Env block check (`lint.py` lines 243-251): only runs when `env` is
declared. -/
def env_findings (job_key : String) (j : Job) : Except Unit (List LintFinding) :=
  match j.env with
  | none => .ok []
  | some kvs => env_keys_findings job_key kvs

/-- Step-level name checks (`lint.py` lines 257-271), mirroring the
workflow-level `if`/`elif` pair; `i` is the 1-based step index. -/
def step_name_findings (i : Nat) (job_key : String) (s : Step) : Except Unit (List LintFinding) :=
  match s.name with
  | none => .ok [⟨s!"Name key missing for step {i} of job key \x27{job_key}\x27.", "warning"⟩]
  | some n =>
    match n.data with
    | [] => .error ()
    | c :: _ =>
      if c.isUpper then .ok []
      else .ok [⟨s!"Name value in step {i} of job key \x27{job_key}\x27 is not capitalized. [{n}]", "warning"⟩]

/-- Revision-hash checks (`lint.py` lines 283-302): a length other than 40
is an error, and independently a revision rejected by `int(hash, 16)` is
an error; both can fire. -/
def hash_findings (i : Nat) (job_key : String) (hash : String) : List LintFinding :=
  (if hash.length ≠ 40 then
    [⟨s!"Step {i} of job key \x27{job_key}\x27 does not have a valid action hash. (not 40 characters)", "error"⟩]
  else []) ++
  (if pyIntHexOk hash then []
  else
    [⟨s!"Step {i} of job key \x27{job_key}\x27 does not have a valid action hash. (not all hexadecimal characters)", "error"⟩])

/-- Path-segment, existence and staleness checks for a `uses` reference
(`lint.py` lines 312-346): a `bitwarden`-substring path needs at least 3
`/`-segments, any other path needs at least 2; only when the path passes
is the registry consulted, and the existence error and the update warning
are mutually exclusive. -/
def uses_ref_findings (api : Api) (i : Nat) (job_key : String) (u : String) (path : String) :
    Except Unit (List LintFinding) :=
  let path_list := pySplitN '/' 2 path
  if strIn "bitwarden" path = true ∧ path_list.length < 3 then
    .ok [⟨s!"Step {i} of job key \x27{job_key}\x27 does not have a valid action path. (missing name of the repository or workflow)", "error"⟩]
  else if path_list.length < 2 then
    .ok [⟨s!"Step {i} of job key \x27{job_key}\x27 does not have a valid action path. (missing workflow name or the workflow author)", "error"⟩]
  else do
    let ex ← action_repo_exists api u
    if ex then do
      match ← get_action_update api u with
      | some upd =>
        .ok [⟨s!"Step {i} of job key \x27{job_key}\x27 uses an outdated action, consider updating it \x27{upd}\x27.", "warning"⟩]
      | none => .ok []
    else
      .ok [⟨s!"Step {i} of job key \x27{job_key}\x27 uses an non-existing action: {u}.", "error"⟩]

/-- The warning emitted by the `run` single-line heuristic (`lint.py`
lines 351-356). -/
def run_warn (i : Nat) (job_key : String) : LintFinding :=
  ⟨s!"Run in step {i} of job key \x27{job_key}\x27 should be a single line.", "warning"⟩

/-- The `run` single-line heuristic (`lint.py` lines 349-356): warn exactly
when the command body contains exactly one line-break character. -/
def run_findings (i : Nat) (job_key : String) (s : Step) : List LintFinding :=
  match s.run with
  | none => []
  | some r =>
    if r.data.count '\n' = 1 then [run_warn i job_key]
    else []

/-- One step of the per-job loop (`lint.py` lines 255-356): name checks,
then the `uses` block, then the `run` check.  When the `uses` reference
does not split on exactly one `@` the `ValueError` is caught and the
source executes `break` (line 278): no finding is added for it, the
`run` check of the same step is skipped, and the returned flag `true`
tells the caller to abandon the remaining steps of the job.  The
`except` branch at lines 303-309 that would report a missing `@` is
unreachable, because the `ValueError` is already caught at line 276. -/
def step_findings (api : Api) (job_key : String) (i : Nat) (s : Step) :
    Except Unit (List LintFinding × Bool) := do
  let nameF ← step_name_findings i job_key s
  match s.uses with
  | none => pure (nameF ++ run_findings i job_key s, false)
  | some u =>
    match usesSplit u with
    | none => pure (nameF, true)
    | some (path, hash) => do
      let refF ← uses_ref_findings api i job_key u path
      pure (nameF ++ hash_findings i job_key hash ++ refF ++ run_findings i job_key s, false)

/-- The per-job step loop (`enumerate(steps, start=1)`, `lint.py`
line 255), honouring the `break` flag from `step_findings`. -/
def steps_findings (api : Api) (job_key : String) : Nat → List Step → Except Unit (List LintFinding)
  | _, [] => .ok []
  | i, s :: rest => do
    let (fs, brk) ← step_findings api job_key i s
    if brk then .ok fs
    else do
      let more ← steps_findings api job_key (i + 1) rest
      .ok (fs ++ more)

/-- All findings of one job (`lint.py` lines 213-356): runner check, name
checks, env checks, then the step loop, in source order. -/
def job_findings (api : Api) (job_key : String) (j : Job) : Except Unit (List LintFinding) := do
  let nameF ← job_name_findings job_key j
  let envF ← env_findings job_key j
  let stepF ← steps_findings api job_key 1 (j.steps.getD [])
  .ok (runner_findings j ++ nameF ++ envF ++ stepF)

/-- The job loop (`lint.py` lines 211-214), in dict insertion order. -/
def jobs_findings (api : Api) : List (String × Job) → Except Unit (List LintFinding)
  | [] => .ok []
  | (job_key, j) :: rest => do
    let fs ← job_findings api job_key j
    let more ← jobs_findings api rest
    .ok (fs ++ more)

/-- Embedding of the finding-producing part of `lint` (`lint.py`
lines 189-356): workflow-level name checks, then every job.  Printing and
the final `get_max_error_level` call are the out-of-scope display and
exit-code layers. -/
def lint (api : Api) (w : Workflow) : Except Unit (List LintFinding) := do
  let wf ← workflow_name_findings w
  let jf ← (match w.jobs with
            | none => pure []
            | some js => jobs_findings api js)
  .ok (wf ++ jf)

/-! Concrete transport oracles and workflow documents used to evaluate the
engine on specific inputs. -/

/-- An oracle whose every response is an explicit `404 Not Found`. -/
def apiNotFound : Api := fun _ => ⟨404, "Not Found", Json.null⟩

/-- An oracle whose every response is a rate-limited `403`. -/
def apiRateLimited : Api := fun _ => ⟨403, "rate limit exceeded", Json.null⟩

/-- An oracle that resolves every reference's latest revision to `sha`
(release tagged `v1` pointing directly at commit `sha`). -/
def apiNoUpdate (sha : String) : Api := fun _ =>
  ⟨200, "OK", Json.obj [("tag_name", Json.str "v1"),
    ("object", Json.obj [("type", Json.str "commit"), ("sha", Json.str sha)])]⟩

/-- An oracle that answers `404` exactly for the repository-metadata URL of
the path `a`, and `200` for everything else. -/
def apiOnlyA404 : Api := fun u =>
  if u = "https://api.github.com/repos/a" then ⟨404, "Not Found", Json.null⟩
  else ⟨200, "OK", Json.null⟩

/-- An oracle whose latest-release lookup for `o/r` succeeds with tag `v1`
but whose every other call is rate-limited. -/
def apiTagThenLimit : Api := fun u =>
  if u = "https://api.github.com/repos/o/r/releases/latest" then
    ⟨200, "OK", Json.obj [("tag_name", Json.str "v1")]⟩
  else ⟨403, "rate limit exceeded", Json.null⟩

/-- An oracle whose release and tag-reference lookups for `o/r` succeed
(the tag is an annotated tag pointing at object URL `OBJ`), but whose
follow-up object call is rate-limited. -/
def apiAnnotatedThenLimit : Api := fun u =>
  if u = "https://api.github.com/repos/o/r/releases/latest" then
    ⟨200, "OK", Json.obj [("tag_name", Json.str "v1")]⟩
  else if u = "https://api.github.com/repos/o/r/git/ref/tags/v1" then
    ⟨200, "OK", Json.obj [("object",
      Json.obj [("type", Json.str "tag"), ("url", Json.str "OBJ"), ("sha", Json.str "s")])]⟩
  else ⟨403, "rate limit exceeded", Json.null⟩

/-- A document whose first step's `uses` has no `@` and whose second step
is missing its `name`. -/
def c1doc : Workflow :=
  ⟨some "Workflow", some [("build", ⟨some "Build", none, none,
    some [⟨some "One", some "someorg/someaction", none⟩, ⟨none, none, none⟩]⟩)]⟩

/-- `c1doc` with the first step's `uses` removed. -/
def c1docControl : Workflow :=
  ⟨some "Workflow", some [("build", ⟨some "Build", none, none,
    some [⟨some "One", none, none⟩, ⟨none, none, none⟩]⟩)]⟩

/-- A document with a single local `uses` reference carrying the revision
`anything`. -/
def c2doc : Workflow :=
  ⟨some "Workflow", some [("job1", ⟨some "Job", none, none,
    some [⟨some "Step", some "./local/workflow.yml@anything", none⟩]⟩)]⟩

/-- A document with the single reference `someorg/someaction@abc`. -/
def c3doc : Workflow :=
  ⟨some "Workflow", some [("job1", ⟨some "Job", none, none,
    some [⟨some "Step", some "someorg/someaction@abc", none⟩]⟩)]⟩

/-- A document with the single reference `someorg/someaction@xyz`. -/
def c3docXyz : Workflow :=
  ⟨some "Workflow", some [("job1", ⟨some "Job", none, none,
    some [⟨some "Step", some "someorg/someaction@xyz", none⟩]⟩)]⟩

/-- A document whose first step's `uses` contains two `@` characters and
whose second step is missing its `name`. -/
def c4doc : Workflow :=
  ⟨some "Workflow", some [("job1", ⟨some "Job", none, none,
    some [⟨some "Step", some "someorg/some@action@abc", none⟩, ⟨none, none, none⟩]⟩)]⟩

/-- A 40-character revision of uppercase hexadecimal characters. -/
def fortyA : String := String.mk (List.replicate 40 'A')

/-- A document pinning `someorg/someaction` to the uppercase revision
`fortyA`. -/
def c5doc : Workflow :=
  ⟨some "Workflow", some [("job1", ⟨some "Job", none, none,
    some [⟨some "Step", some ("someorg/someaction@" ++ fortyA), none⟩]⟩)]⟩

/-- A document whose single step has a `uses` without `@` and a two-line
`run` body. -/
def c9doc : Workflow :=
  ⟨some "Workflow", some [("job1", ⟨some "Job", none, none,
    some [⟨some "Step", some "someorg-someaction", some "line1\nline2"⟩]⟩)]⟩

/-- A document referencing `not-bitwarden/action` (an owner that merely
contains the substring `bitwarden`) at a valid 40-hex revision. -/
def c10doc : Workflow :=
  ⟨some "Workflow", some [("job1", ⟨some "Job", none, none,
    some [⟨some "Step", some "not-bitwarden/action@0123456789abcdef0123456789abcdef01234567", none⟩]⟩)]⟩

/-- C1: evaluation of the engine at the failing input.  The first step's
`uses` (`someorg/someaction`) has no `@`, yet the engine emits no finding
at all: the `ValueError` from the split is caught with a `break`
(`lint.py` lines 276-278), so no missing-`@` error is appended (the error
branch at lines 303-309 is unreachable) and the second step — whose
missing `name` would warn, as the control document shows — is never
evaluated. -/
theorem C1_code_behavior :
    lint apiNotFound c1doc = .ok []
    ∧ lint apiNotFound c1docControl =
        .ok [⟨"Name key missing for step 2 of job key \x27build\x27.", "warning"⟩] :=
  ⟨rfl, rfl⟩

/-- C2 counterexample: the local reference `./local/workflow.yml@anything`
does receive hash findings — the engine flags its revision both for length
and for hex validity — refuting that no hash finding is ever produced for
a step with a local reference. -/
theorem C2_counterexample :
    lint apiNotFound c2doc =
      .ok [⟨"Step 1 of job key \x27job1\x27 does not have a valid action hash. (not 40 characters)", "error"⟩,
           ⟨"Step 1 of job key \x27job1\x27 does not have a valid action hash. (not all hexadecimal characters)", "error"⟩] :=
  rfl

/-- C3 counterexample: `someorg/someaction@abc` produces exactly one error
finding (invalid length).  No hex-validity finding appears because `abc`
is a valid hexadecimal string (`int("abc", 16)` succeeds). -/
theorem C3_counterexample :
    lint (apiNoUpdate "abc") c3doc =
      .ok [⟨"Step 1 of job key \x27job1\x27 does not have a valid action hash. (not 40 characters)", "error"⟩]
    ∧ pyIntHexOk "abc" = true :=
  ⟨rfl, rfl⟩

/-- C3 amended: `someorg/someaction@abc` yields exactly the length error
(its revision is valid hex), while `someorg/someaction@xyz`, whose
revision is short AND non-hexadecimal, yields both error findings — the
two checks are independent, but `abc` only violates one of them. -/
theorem C3_amended :
    lint (apiNoUpdate "abc") c3doc =
      .ok [⟨"Step 1 of job key \x27job1\x27 does not have a valid action hash. (not 40 characters)", "error"⟩]
    ∧ lint (apiNoUpdate "xyz") c3docXyz =
      .ok [⟨"Step 1 of job key \x27job1\x27 does not have a valid action hash. (not 40 characters)", "error"⟩,
           ⟨"Step 1 of job key \x27job1\x27 does not have a valid action hash. (not all hexadecimal characters)", "error"⟩] :=
  ⟨rfl, rfl⟩

/-- C5 counterexample: the 40-character uppercase revision `AAA…A` is not
flagged at all — `int(hash, 16)` is case-insensitive — refuting that a
40-character revision with uppercase hexadecimal characters produces an
error finding. -/
theorem C5_counterexample :
    lint (apiNoUpdate fortyA) c5doc = .ok []
    ∧ fortyA.length = 40
    ∧ (fortyA.data.all fun c => c.isUpper) = true :=
  ⟨rfl, rfl, rfl⟩

/-- C9 counterexample: a step whose `run` body contains exactly one
line-break produces no warning when its `uses` reference fails to split on
`@` — the caught `ValueError` breaks out of the step loop before the
`run` check — refuting the unconditional "exactly one warning". -/
theorem C9_counterexample :
    lint apiNotFound c9doc = .ok []
    ∧ ("line1\nline2".data.count '\n') = 1 :=
  ⟨rfl, rfl⟩

/-- C4 counterexample: the engine-side split fails on `a@b@c` (more than
one `@`), and in a document it silently aborts the rest of the job's
steps; the registry-side split splits on the FIRST `@`, not the last —
`action_repo_exists` consults the URL for path `a` (the text before the
first `@`), as the oracle that answers 404 only for that URL shows. -/
theorem C4_counterexample :
    usesSplit "a@b@c" = none
    ∧ (registrySplit "a@b@c").1 = "a"
    ∧ lint apiNotFound c4doc = .ok []
    ∧ action_repo_exists apiOnlyA404 "a@b@c" = .ok false :=
  ⟨rfl, rfl, rfl, rfl⟩

/-- C2 amended: a reference containing the relative-path marker `./` is
exempt from the REMOTE checks — existence reports true and no update is
found, for every transport oracle (so no remote response can influence
the result) — but the engine's hash checks still run on such a step, as
the concrete local reference `./local/workflow.yml@anything` shows
(length and hex errors, identical under every oracle). -/
theorem C2_amended :
    (∀ (api : Api) (aid : String), strIn "./" aid = true →
      action_repo_exists api aid = .ok true ∧ get_action_update api aid = .ok none)
    ∧ (∀ api : Api, lint api c2doc =
        .ok [⟨"Step 1 of job key \x27job1\x27 does not have a valid action hash. (not 40 characters)", "error"⟩,
             ⟨"Step 1 of job key \x27job1\x27 does not have a valid action hash. (not all hexadecimal characters)", "error"⟩]) := by
  constructor
  · intro api aid h
    constructor
    · simp [action_repo_exists, h]
    · simp [get_action_update, h]
  · intro api
    rfl

/-- C2 amended, witnessed at the local reference of the claim and the
all-404 oracle. -/
theorem C2_amended_witness :
    (action_repo_exists apiNotFound "./local/workflow.yml@anything" = .ok true
      ∧ get_action_update apiNotFound "./local/workflow.yml@anything" = .ok none)
    ∧ lint apiNotFound c2doc =
        .ok [⟨"Step 1 of job key \x27job1\x27 does not have a valid action hash. (not 40 characters)", "error"⟩,
             ⟨"Step 1 of job key \x27job1\x27 does not have a valid action hash. (not all hexadecimal characters)", "error"⟩] :=
  ⟨C2_amended.1 apiNotFound "./local/workflow.yml@anything" rfl, C2_amended.2 apiNotFound⟩

/-- C5 amended: the revision checks flag a reference exactly when its
revision fails the length-40 check or Python's `int(·, 16)` parse — and
that parse is case-insensitive, so the 40-character uppercase revision
`AAA…A` produces no finding. -/
theorem C5_amended :
    (∀ (i : Nat) (jk h : String),
      hash_findings i jk h = [] ↔ (h.length = 40 ∧ pyIntHexOk h = true))
    ∧ hash_findings 1 "job1" fortyA = [] := by
  constructor
  · intro i jk h
    unfold hash_findings
    by_cases h1 : h.length = 40 <;> by_cases h2 : pyIntHexOk h <;> simp [h1, h2]
  · rfl

/-- C5 amended, witnessed at the concrete uppercase revision `fortyA`. -/
theorem C5_amended_witness :
    hash_findings 1 "job1" fortyA = [] ↔ (fortyA.length = 40 ∧ pyIntHexOk fortyA = true) :=
  C5_amended.1 1 "job1" fortyA

/-- C10: the internal-namespace classification is by substring containment
of `bitwarden` in the path, not owner-segment equality: whenever the path
contains that substring and has fewer than three `/`-segments, the
3-segment error fires regardless of the transport; a path without the
substring is looked up whole (repository-granularity route), while a
containing path is truncated to its first two segments (internal route,
shown for `not-bitwarden/gh-actions/thing`); in particular
`not-bitwarden/action` — whose owner merely contains the substring — is
held to the internal 3-segment rule in a full document. -/
theorem C10_bitwarden_substring :
    (∀ (api : Api) (i : Nat) (jk u path : String),
      strIn "bitwarden" path = true → (pySplitN '/' 2 path).length < 3 →
      uses_ref_findings api i jk u path =
        .ok [⟨s!"Step {i} of job key \x27{jk}\x27 does not have a valid action path. (missing name of the repository or workflow)", "error"⟩])
    ∧ (∀ path : String, strIn "bitwarden" path = false →
        action_repo_url path = .ok s!"https://api.github.com/repos/{path}")
    ∧ action_repo_url "not-bitwarden/gh-actions/thing" =
        .ok "https://api.github.com/repos/not-bitwarden/gh-actions"
    ∧ strIn "bitwarden" "not-bitwarden/action" = true
    ∧ (∀ api : Api, lint api c10doc =
        .ok [⟨"Step 1 of job key \x27job1\x27 does not have a valid action path. (missing name of the repository or workflow)", "error"⟩]) := by
  refine ⟨?_, ?_, rfl, rfl, fun api => rfl⟩
  · intro api i jk u path h1 h2
    simp [uses_ref_findings, h1, h2]
  · intro path h
    simp [action_repo_url, h]

/-- C10, witnessed at the path `not-bitwarden/action` (substring present,
two segments) and at a substring-free path. -/
theorem C10_bitwarden_substring_witness :
    uses_ref_findings apiNotFound 1 "job1" "not-bitwarden/action@x" "not-bitwarden/action" =
      .ok [⟨"Step 1 of job key \x27job1\x27 does not have a valid action path. (missing name of the repository or workflow)", "error"⟩]
    ∧ action_repo_url "someorg/someaction" = .ok "https://api.github.com/repos/someorg/someaction"
    ∧ lint apiNotFound c10doc =
      .ok [⟨"Step 1 of job key \x27job1\x27 does not have a valid action path. (missing name of the repository or workflow)", "error"⟩] :=
  ⟨C10_bitwarden_substring.1 apiNotFound 1 "job1" "not-bitwarden/action@x" "not-bitwarden/action" rfl (by decide),
   C10_bitwarden_substring.2.1 "someorg/someaction" rfl,
   C10_bitwarden_substring.2.2.2.2 apiNotFound⟩

/-- C8: at each of the three scopes the missing-name warning and the
not-capitalized warning are mutually exclusive (the capitalization check
sits in the `elif` branch of the presence check): a scope missing `name`
yields exactly the one missing-name warning, and a scope with a `name`
yields either no finding or exactly the capitalization warning — never a
missing-name warning. -/
theorem C8_name_mutual_exclusion :
    (∀ w : Workflow, w.name = none →
      workflow_name_findings w = .ok [⟨"Name key missing for workflow.", "warning"⟩])
    ∧ (∀ (w : Workflow) (n : String) (fs : List LintFinding), w.name = some n →
        workflow_name_findings w = .ok fs →
        fs = [] ∨ fs = [⟨s!"Name value for workflow is not capitalized. [{n}]", "warning"⟩])
    ∧ (∀ (jk : String) (j : Job), j.name = none →
        job_name_findings jk j = .ok [⟨s!"Name key missing for job key \x27{jk}\x27.", "warning"⟩])
    ∧ (∀ (jk : String) (j : Job) (n : String) (fs : List LintFinding), j.name = some n →
        job_name_findings jk j = .ok fs →
        fs = [] ∨ fs = [⟨s!"Name value of job key \x27{jk}\x27 is not capitalized. [{n}]", "warning"⟩])
    ∧ (∀ (i : Nat) (jk : String) (s : Step), s.name = none →
        step_name_findings i jk s = .ok [⟨s!"Name key missing for step {i} of job key \x27{jk}\x27.", "warning"⟩])
    ∧ (∀ (i : Nat) (jk : String) (s : Step) (n : String) (fs : List LintFinding), s.name = some n →
        step_name_findings i jk s = .ok fs →
        fs = [] ∨ fs = [⟨s!"Name value in step {i} of job key \x27{jk}\x27 is not capitalized. [{n}]", "warning"⟩]) := by
  refine ⟨?_, ?_, ?_, ?_, ?_, ?_⟩
  · intro w h; simp [workflow_name_findings, h]
  · intro w n fs h heq
    simp only [workflow_name_findings, h] at heq
    split at heq
    · cases heq
    · split at heq
      · cases heq; exact Or.inl rfl
      · cases heq; exact Or.inr rfl
  · intro jk j h; simp [job_name_findings, h]
  · intro jk j n fs h heq
    simp only [job_name_findings, h] at heq
    split at heq
    · cases heq
    · split at heq
      · cases heq; exact Or.inl rfl
      · cases heq; exact Or.inr rfl
  · intro i jk s h; simp [step_name_findings, h]
  · intro i jk s n fs h heq
    simp only [step_name_findings, h] at heq
    split at heq
    · cases heq
    · split at heq
      · cases heq; exact Or.inl rfl
      · cases heq; exact Or.inr rfl

/-- C8, witnessed at a workflow without a name, a job with a lowercase
name and a step with an uppercase name. -/
theorem C8_name_mutual_exclusion_witness :
    workflow_name_findings ⟨none, none⟩ = .ok [⟨"Name key missing for workflow.", "warning"⟩]
    ∧ (([⟨"Name value of job key \x27j\x27 is not capitalized. [build]", "warning"⟩] : List LintFinding) = []
        ∨ ([⟨"Name value of job key \x27j\x27 is not capitalized. [build]", "warning"⟩] : List LintFinding)
          = [⟨"Name value of job key \x27j\x27 is not capitalized. [build]", "warning"⟩])
    ∧ (([] : List LintFinding) = []
        ∨ ([] : List LintFinding) = [⟨"Name value in step 1 of job key \x27j\x27 is not capitalized. [Run]", "warning"⟩]) :=
  ⟨C8_name_mutual_exclusion.1 ⟨none, none⟩ rfl,
   C8_name_mutual_exclusion.2.2.2.1 "j" ⟨some "build", none, none, none⟩ "build" _ rfl rfl,
   C8_name_mutual_exclusion.2.2.2.2.2 1 "j" ⟨some "Run", none, none⟩ "Run" _ rfl rfl⟩

/-- Running Python's `max(…, key=…)` over findings whose levels are known
to `PROBLEM_LEVELS` yields an element of the scanned collection whose
level value bounds every scanned level value from above. -/
theorem pyMaxByLevel_spec (fs : List LintFinding) :
    ∀ (best : LintFinding) (kb : Nat), PROBLEM_LEVELS best.level = some kb →
    (∀ f ∈ fs, f.level = "warning" ∨ f.level = "error") →
    ∃ m km, pyMaxByLevel best fs = some m ∧ PROBLEM_LEVELS m.level = some km ∧
      (m = best ∨ m ∈ fs) ∧ kb ≤ km ∧
      ∀ f ∈ fs, ∀ k, PROBLEM_LEVELS f.level = some k → k ≤ km := by
  induction fs with
  | nil =>
    intro best kb hb _
    exact ⟨best, kb, rfl, hb, Or.inl rfl, Nat.le_refl _, by simp⟩
  | cons f fs ih =>
    intro best kb hb hall
    obtain ⟨kf, hkf⟩ : ∃ kf, PROBLEM_LEVELS f.level = some kf := by
      rcases hall f (by simp) with h | h
      · exact ⟨1, by rw [h]; rfl⟩
      · exact ⟨2, by rw [h]; rfl⟩
    have hall' : ∀ g ∈ fs, g.level = "warning" ∨ g.level = "error" :=
      fun g hg => hall g (by simp [hg])
    have hb' : PROBLEM_LEVELS (if kb < kf then f else best).level =
        some (if kb < kf then kf else kb) := by
      by_cases hlt : kb < kf
      · simp [hlt, hkf]
      · simp [hlt, hb]
    obtain ⟨m, km, hrec, hm, hmem, hle, hbound⟩ := ih (if kb < kf then f else best) _ hb' hall'
    have hkb_le : kb ≤ (if kb < kf then kf else kb) := by
      by_cases hlt : kb < kf
      · simp only [if_pos hlt]; exact Nat.le_of_lt hlt
      · simp only [if_neg hlt]; exact Nat.le_refl kb
    have hkf_le : kf ≤ (if kb < kf then kf else kb) := by
      by_cases hlt : kb < kf
      · simp only [if_pos hlt]; exact Nat.le_refl kf
      · simp only [if_neg hlt]; exact Nat.le_of_not_lt hlt
    refine ⟨m, km, ?_, hm, ?_, Nat.le_trans hkb_le hle, ?_⟩
    · simp only [pyMaxByLevel, hb, hkf, Option.some_bind]
      exact hrec
    · rcases hmem with h | h
      · by_cases hlt : kb < kf
        · rw [if_pos hlt] at h; exact Or.inr (by simp [h])
        · rw [if_neg hlt] at h; exact Or.inl h
      · exact Or.inr (by simp [h])
    · intro g hg k hk
      rcases List.mem_cons.mp hg with h | h
      · subst h
        rw [hk] at hkf
        cases hkf
        exact Nat.le_trans hkf_le hle
      · exact hbound g h k hk

/-- C7: the severity aggregator maps the empty finding list to `0` and a
non-empty list of `warning`/`error` findings to the maximum level present
(some finding attains the returned value and every finding's value is
bounded by it); in particular two warnings reduce to `1` and a warning,
error, warning sequence reduces to `2`. -/
theorem C7_severity_aggregation :
    get_max_error_level [] = some 0
    ∧ (∀ fs : List LintFinding, fs ≠ [] →
        (∀ f ∈ fs, f.level = "warning" ∨ f.level = "error") →
        ∃ n, get_max_error_level fs = some n
          ∧ (∃ f ∈ fs, PROBLEM_LEVELS f.level = some n)
          ∧ ∀ f ∈ fs, ∀ k, PROBLEM_LEVELS f.level = some k → k ≤ n)
    ∧ get_max_error_level [⟨"a", "warning"⟩, ⟨"b", "warning"⟩] = some 1
    ∧ get_max_error_level [⟨"a", "warning"⟩, ⟨"b", "error"⟩, ⟨"c", "warning"⟩] = some 2 := by
  refine ⟨rfl, ?_, rfl, rfl⟩
  intro fs hne hall
  match fs, hne with
  | f :: rest, _ =>
    obtain ⟨kb, hkb⟩ : ∃ kb, PROBLEM_LEVELS f.level = some kb := by
      rcases hall f (by simp) with h | h
      · exact ⟨1, by rw [h]; rfl⟩
      · exact ⟨2, by rw [h]; rfl⟩
    obtain ⟨m, km, hrec, hm, hmem, hle, hbound⟩ :=
      pyMaxByLevel_spec rest f kb hkb (fun g hg => hall g (by simp [hg]))
    refine ⟨km, ?_, ⟨m, ?_, hm⟩, ?_⟩
    · simp [get_max_error_level, hrec, hm]
    · rcases hmem with h | h
      · simp [h]
      · simp [h]
    · intro g hg k hk
      rcases List.mem_cons.mp hg with h | h
      · subst h
        rw [hk] at hkb
        cases hkb
        exact hle
      · exact hbound g h k hk

/-- C7, witnessed at the two example lists of the claim. -/
theorem C7_severity_aggregation_witness :
    ∃ n, get_max_error_level [⟨"a", "warning"⟩, ⟨"b", "error"⟩, ⟨"c", "warning"⟩] = some n
      ∧ (∃ f ∈ [(⟨"a", "warning"⟩ : LintFinding), ⟨"b", "error"⟩, ⟨"c", "warning"⟩],
          PROBLEM_LEVELS f.level = some n)
      ∧ ∀ f ∈ [(⟨"a", "warning"⟩ : LintFinding), ⟨"b", "error"⟩, ⟨"c", "warning"⟩],
          ∀ k, PROBLEM_LEVELS f.level = some k → k ≤ n :=
  C7_severity_aggregation.2.1 [⟨"a", "warning"⟩, ⟨"b", "error"⟩, ⟨"c", "warning"⟩]
    (by simp) (by simp)

/-- Unfolding lemma: binding a successful `Except` computation applies the
continuation. -/
theorem exceptBind_ok {α β : Type} (a : α) (f : α → Except Unit β) :
    (Except.ok a >>= f) = f a := rfl

/-- Unfolding lemma: binding a failed `Except` computation propagates the
failure. -/
theorem exceptBind_error {α β : Type} (e : Unit) (f : α → Except Unit β) :
    ((Except.error e : Except Unit α) >>= f) = Except.error e := rfl

/-- Unfolding lemma: mapping over a successful `Except` computation. -/
theorem exceptMap_ok {α β : Type} (a : α) (f : α → β) :
    (f <$> (Except.ok a : Except Unit α)) = Except.ok (f a) := rfl

/-- Unfolding lemma: mapping over a failed `Except` computation. -/
theorem exceptMap_error {α β : Type} (e : Unit) (f : α → β) :
    (f <$> (Except.error e : Except Unit α)) = Except.error e := rfl

/-- Unfolding lemma: `pure` into `Except` is `Except.ok`. -/
theorem exceptPure {α : Type} (a : α) : (pure a : Except Unit α) = Except.ok a := rfl

/-- C9 amended: the `run` rule warns if and only if the body has exactly
one line-break — but only for steps the engine actually reaches.  The
rule's findings are a suffix of every step's finding list whenever the
step's `uses` (if any) splits on exactly one `@`; when the split fails,
the step's findings are just its name findings (the caught `ValueError`
breaks before the `run` check), so no `run` warning is produced even for
a one-line-break body. -/
theorem C9_amended :
    (∀ (i : Nat) (jk : String) (s : Step),
      run_findings i jk s = [run_warn i jk] ↔ ∃ r, s.run = some r ∧ r.data.count '\n' = 1)
    ∧ (∀ (i : Nat) (jk : String) (s : Step),
      run_findings i jk s = [] ↔ ¬ ∃ r, s.run = some r ∧ r.data.count '\n' = 1)
    ∧ (∀ (api : Api) (jk : String) (i : Nat) (s : Step) (fs : List LintFinding) (b : Bool),
        (∀ u, s.uses = some u → (usesSplit u).isSome = true) →
        step_findings api jk i s = .ok (fs, b) →
        ∃ pre, fs = pre ++ run_findings i jk s)
    ∧ (∀ (api : Api) (jk : String) (i : Nat) (s : Step) (u : String),
        s.uses = some u → usesSplit u = none →
        step_findings api jk i s = (step_name_findings i jk s).map (fun nf => (nf, true))) := by
  refine ⟨?_, ?_, ?_, ?_⟩
  · intro i jk s
    cases hr : s.run with
    | none => simp [run_findings, hr]
    | some r =>
      by_cases hc : r.data.count '\n' = 1 <;> simp [run_findings, hr, hc]
  · intro i jk s
    cases hr : s.run with
    | none => simp [run_findings, hr]
    | some r =>
      by_cases hc : r.data.count '\n' = 1 <;> simp [run_findings, hr, hc]
  · intro api jk i s fs b hsome heq
    simp only [step_findings] at heq
    cases hn : step_name_findings i jk s with
    | error e =>
      rw [hn] at heq
      simp only [exceptBind_error] at heq
      cases heq
    | ok nf =>
      rw [hn] at heq
      simp only [exceptBind_ok] at heq
      split at heq
      · simp only [exceptPure] at heq
        cases heq
        exact ⟨nf, rfl⟩
      · rename_i u hu
        split at heq
        · rename_i hsplit
          exact absurd (hsome u hu) (by simp [hsplit])
        · rename_i path hsh hsplit
          cases hr : uses_ref_findings api i jk u path with
          | error e =>
            rw [hr] at heq
            simp only [exceptBind_error] at heq
            cases heq
          | ok rf =>
            rw [hr] at heq
            simp only [exceptBind_ok, exceptPure] at heq
            cases heq
            exact ⟨nf ++ hash_findings i jk hsh ++ rf, by simp [List.append_assoc]⟩
  · intro api jk i s u hu hsplit
    simp only [step_findings]
    cases hn : step_name_findings i jk s with
    | error e => simp [hn, exceptBind_error, Except.map]
    | ok nf => simp [hn, exceptBind_ok, exceptPure, Except.map, hu, hsplit]

/-- C9 amended, witnessed at a reachable step with a one-line-break body
and at the aborted step of `c9doc`. -/
theorem C9_amended_witness :
    (run_findings 1 "job1" ⟨some "Step", none, some "line1\nline2"⟩ = [run_warn 1 "job1"]
      ↔ ∃ r, (⟨some "Step", none, some "line1\nline2"⟩ : Step).run = some r
          ∧ r.data.count '\n' = 1)
    ∧ (∃ pre, [run_warn 1 "job1"] =
        pre ++ run_findings 1 "job1" ⟨some "Step", none, some "line1\nline2"⟩)
    ∧ step_findings apiNotFound "job1" 1 ⟨some "Step", some "someorg-someaction", some "line1\nline2"⟩ =
        (step_name_findings 1 "job1" ⟨some "Step", some "someorg-someaction", some "line1\nline2"⟩).map
          (fun nf => (nf, true)) :=
  ⟨C9_amended.1 1 "job1" ⟨some "Step", none, some "line1\nline2"⟩,
   C9_amended.2.2.1 apiNotFound "job1" 1 ⟨some "Step", none, some "line1\nline2"⟩
     [run_warn 1 "job1"] false (fun u hu => by cases hu) rfl,
   C9_amended.2.2.2 apiNotFound "job1" 1 ⟨some "Step", some "someorg-someaction", some "line1\nline2"⟩
     "someorg-someaction" rfl rfl⟩

/-- Python's split always yields at least one part. -/
theorem pySplitCh_ne_nil (sep : Char) (l : List Char) : pySplitCh sep l ≠ [] := by
  induction l with
  | nil => simp [pySplitCh]
  | cons c cs ih =>
    by_cases hc : c = sep
    · simp [pySplitCh, hc]
    · simp only [pySplitCh, beq_iff_eq, if_neg hc]
      cases h : pySplitCh sep cs with
      | nil => simp
      | cons p ps => simp

/-- Python's split yields one more part than there are separators. -/
theorem pySplitCh_length (sep : Char) (l : List Char) :
    (pySplitCh sep l).length = l.count sep + 1 := by
  induction l with
  | nil => simp [pySplitCh]
  | cons c cs ih =>
    by_cases hc : c = sep
    · subst hc
      simp [pySplitCh, List.count_cons, ih]
    · simp only [pySplitCh, beq_iff_eq, if_neg hc]
      cases h : pySplitCh sep cs with
      | nil => exact absurd h (pySplitCh_ne_nil sep cs)
      | cons p ps =>
        rw [h] at ih
        simp only [List.length_cons] at ih ⊢
        rw [List.count_cons]
        simp [hc]
        omega

/-- The first part of Python's split is the text before the first
separator. -/
theorem pySplitCh_head (sep : Char) (l : List Char) :
    ∃ ps, pySplitCh sep l = (l.takeWhile fun c => c != sep) :: ps := by
  induction l with
  | nil => exact ⟨[], rfl⟩
  | cons c cs ih =>
    by_cases hc : c = sep
    · refine ⟨pySplitCh sep cs, ?_⟩
      simp [pySplitCh, hc, List.takeWhile]
    · obtain ⟨ps, hps⟩ := ih
      refine ⟨ps, ?_⟩
      have hbne : (c != sep) = true := by simp [hc]
      simp only [pySplitCh, beq_iff_eq, if_neg hc, hps, List.takeWhile, hbne]

/-- A list whose every element satisfies the predicate is its own
`takeWhile`. -/
theorem takeWhile_of_all {α : Type} (p : α → Bool) (l : List α)
    (h : ∀ c ∈ l, p c = true) : l.takeWhile p = l := by
  induction l with
  | nil => rfl
  | cons c cs ih =>
    simp [List.takeWhile, h c (by simp), ih (fun x hx => h x (by simp [hx]))]

/-- Rebuilding a string from its characters is the identity. -/
theorem strMk_data (s : String) : String.mk s.data = s := by
  cases s
  rfl

/-- The engine-side split succeeds exactly on a two-part result. -/
theorem usesSplit_isSome_iff (u : String) :
    (usesSplit u).isSome = true ↔ (pySplit '@' u).length = 2 := by
  unfold usesSplit
  rcases h : pySplit '@' u with _ | ⟨a, _ | ⟨b, _ | ⟨c, t⟩⟩⟩ <;> simp

/-- C4 amended: the engine's step split (`path, hash = uses.split("@")`)
succeeds exactly when the reference contains exactly one `@` — zero or
several `@` raise a `ValueError` that the engine catches, aborting the
job's remaining steps without a finding.  The registry-side split
(`path, *hash = split("@")`) never fails, but it splits on the FIRST `@`:
the path is the text before the first `@`, and a reference without `@`
degrades gracefully to the whole string with an empty revision list. -/
theorem C4_amended :
    (∀ u : String, (usesSplit u).isSome = true ↔ u.data.count '@' = 1)
    ∧ (∀ aid : String,
        (registrySplit aid).1 = String.mk (aid.data.takeWhile fun c => c != '@'))
    ∧ (∀ aid : String, aid.data.count '@' = 0 → registrySplit aid = (aid, [])) := by
  refine ⟨?_, ?_, ?_⟩
  · intro u
    have h1 : (pySplit '@' u).length = u.data.count '@' + 1 := by
      simp [pySplit, pySplitCh_length]
    rw [usesSplit_isSome_iff, h1]
    omega
  · intro aid
    obtain ⟨ps, hps⟩ := pySplitCh_head '@' aid.data
    unfold registrySplit
    simp [pySplit, hps]
  · intro aid h
    obtain ⟨ps, hps⟩ := pySplitCh_head '@' aid.data
    have hlen : (pySplitCh '@' aid.data).length = 1 := by
      rw [pySplitCh_length, h]
    have hps0 : ps = [] := by
      rw [hps] at hlen
      simpa using hlen
    subst hps0
    have hnot : '@' ∉ aid.data := by
      rw [← List.count_eq_zero]
      exact h
    have htake : aid.data.takeWhile (fun c => c != '@') = aid.data := by
      apply takeWhile_of_all
      intro c hc
      simp only [bne_iff_ne, ne_eq, decide_eq_true_eq]
      intro hceq
      exact hnot (hceq ▸ hc)
    unfold registrySplit
    simp [pySplit, hps, htake, strMk_data]

/-- C4 amended, witnessed at a one-`@` reference and an `@`-free one. -/
theorem C4_amended_witness :
    ((usesSplit "someorg/someaction@abc").isSome = true
      ↔ "someorg/someaction@abc".data.count '@' = 1)
    ∧ registrySplit "someorg/someaction" = ("someorg/someaction", []) :=
  ⟨C4_amended.1 "someorg/someaction@abc",
   C4_amended.2.2 "someorg/someaction" (by decide)⟩

/-- C6: the registry client's failure policy.  A call fails (`None`)
exactly on rate-limited `403` or unauthorized `401` responses; the
existence check returns `false` if and only if the consulted URL yields
an explicit `404` (so every failure mode yields `true`, stated
separately); and the update-resolution chain returns "no update"
whenever any of its calls fails — at the internal (commit-history)
route's single call, or at any of the external route's release,
tag-reference, or annotated-tag follow-up calls. -/
theorem C6_registry_failure_policy :
    (∀ (api : Api) (u : String),
      get_github_api_response api u = none ↔
        (((api u).status = 403 ∧ (api u).reason = "rate limit exceeded")
          ∨ ((api u).status = 401 ∧ (api u).reason = "Unauthorized")))
    ∧ (∀ (api : Api) (aid url : String), strIn "./" aid = false →
        action_repo_url (registrySplit aid).1 = .ok url →
        (action_repo_exists api aid = .ok false ↔
          ∃ r, get_github_api_response api url = some r ∧ r.status = 404))
    ∧ (∀ (api : Api) (aid url : String), strIn "./" aid = false →
        action_repo_url (registrySplit aid).1 = .ok url →
        get_github_api_response api url = none →
        action_repo_exists api aid = .ok true)
    ∧ (∀ (api : Api) (aid p0 p1 p2 : String), strIn "./" aid = false →
        strIn "bitwarden" (registrySplit aid).1 = true →
        pySplitN '/' 2 (registrySplit aid).1 = [p0, p1, p2] →
        get_github_api_response api
          s!"https://api.github.com/repos/{p0}/{p1}/commits?path={p2}" = none →
        get_action_update api aid = .ok none)
    ∧ (∀ (api : Api) (aid : String), strIn "./" aid = false →
        strIn "bitwarden" (registrySplit aid).1 = false →
        get_github_api_response api
          s!"https://api.github.com/repos/{(registrySplit aid).1}/releases/latest" = none →
        get_action_update api aid = .ok none)
    ∧ (∀ (api : Api) (aid : String) (r : Resp) (tagJ : Json), strIn "./" aid = false →
        strIn "bitwarden" (registrySplit aid).1 = false →
        get_github_api_response api
          s!"https://api.github.com/repos/{(registrySplit aid).1}/releases/latest" = some r →
        r.data.get? "tag_name" = some tagJ →
        get_github_api_response api
          s!"https://api.github.com/repos/{(registrySplit aid).1}/git/ref/tags/{tagJ.fmt}" = none →
        get_action_update api aid = .ok none)
    ∧ (∀ (api : Api) (aid : String) (r r2 : Resp) (tagJ ty urlJ : Json), strIn "./" aid = false →
        strIn "bitwarden" (registrySplit aid).1 = false →
        get_github_api_response api
          s!"https://api.github.com/repos/{(registrySplit aid).1}/releases/latest" = some r →
        r.data.get? "tag_name" = some tagJ →
        get_github_api_response api
          s!"https://api.github.com/repos/{(registrySplit aid).1}/git/ref/tags/{tagJ.fmt}" = some r2 →
        (r2.data.get? "object").bind (fun j => j.get? "type") = some ty →
        Json.eqStr ty "commit" = false →
        (r2.data.get? "object").bind (fun j => j.get? "url") = some urlJ →
        get_github_api_response api urlJ.fmt = none →
        get_action_update api aid = .ok none) := by
  refine ⟨?_, ?_, ?_, ?_, ?_, ?_, ?_⟩
  · intro api u
    constructor
    · intro h
      simp only [get_github_api_response] at h
      split at h
      · rename_i hcond
        left
        simpa [Bool.and_eq_true, beq_iff_eq] using hcond
      · split at h
        · rename_i hcond
          right
          simpa [Bool.and_eq_true, beq_iff_eq] using hcond
        · cases h
    · intro h
      simp only [get_github_api_response]
      rcases h with ⟨h1, h2⟩ | ⟨h1, h2⟩
      · simp [h1, h2]
      · simp [h1, h2]
  · intro api aid url hlocal hurl
    simp only [action_repo_exists, hlocal, Bool.false_eq_true, if_false, hurl, exceptBind_ok]
    cases hg : get_github_api_response api url with
    | none => simp [hg]
    | some r =>
      by_cases h404 : r.status = 404
      · simp [hg, h404]
      · simp [hg, h404]
  · intro api aid url hlocal hurl hg
    simp [action_repo_exists, hlocal, hurl, exceptBind_ok, hg]
  · intro api aid p0 p1 p2 hlocal hbw hsplit hg
    simp [get_action_update, hlocal, hbw, hsplit, hg]
  · intro api aid hlocal hbw hg
    simp [get_action_update, hlocal, hbw, hg]
  · intro api aid r tagJ hlocal hbw hg1 htag hg2
    simp [get_action_update, hlocal, hbw, hg1, htag, hg2]
  · intro api aid r r2 tagJ ty urlJ hlocal hbw hg1 htag hg2 hty hcommit hurlJ hg3
    simp [get_action_update, hlocal, hbw, hg1, htag, hg2, hty, hcommit, hurlJ, hg3]

/-- C6, witnessed: a rate-limited oracle fails the call characterization,
keeps existence `true`, and drives both update routes (and the deeper
external-chain stages, via staged oracles) to "no update"; an explicit
404 makes existence `false` via the equivalence. -/
theorem C6_registry_failure_policy_witness :
    (get_github_api_response apiRateLimited "u" = none ↔
      (((apiRateLimited "u").status = 403 ∧ (apiRateLimited "u").reason = "rate limit exceeded")
        ∨ ((apiRateLimited "u").status = 401 ∧ (apiRateLimited "u").reason = "Unauthorized")))
    ∧ (action_repo_exists apiNotFound "o/r@h" = .ok false ↔
        ∃ r, get_github_api_response apiNotFound "https://api.github.com/repos/o/r" = some r
          ∧ r.status = 404)
    ∧ action_repo_exists apiRateLimited "o/r@h" = .ok true
    ∧ get_action_update apiRateLimited "bitwarden/r/p@h" = .ok none
    ∧ get_action_update apiRateLimited "o/r@h" = .ok none
    ∧ get_action_update apiTagThenLimit "o/r@h" = .ok none
    ∧ get_action_update apiAnnotatedThenLimit "o/r@h" = .ok none :=
  ⟨C6_registry_failure_policy.1 apiRateLimited "u",
   C6_registry_failure_policy.2.1 apiNotFound "o/r@h" "https://api.github.com/repos/o/r" rfl rfl,
   C6_registry_failure_policy.2.2.1 apiRateLimited "o/r@h" "https://api.github.com/repos/o/r" rfl rfl rfl,
   C6_registry_failure_policy.2.2.2.1 apiRateLimited "bitwarden/r/p@h" "bitwarden" "r" "p" rfl rfl rfl rfl,
   C6_registry_failure_policy.2.2.2.2.1 apiRateLimited "o/r@h" rfl rfl rfl,
   C6_registry_failure_policy.2.2.2.2.2.1 apiTagThenLimit "o/r@h"
     ⟨200, "OK", Json.obj [("tag_name", Json.str "v1")]⟩ (Json.str "v1") rfl rfl rfl rfl rfl,
   C6_registry_failure_policy.2.2.2.2.2.2 apiAnnotatedThenLimit "o/r@h"
     ⟨200, "OK", Json.obj [("tag_name", Json.str "v1")]⟩
     ⟨200, "OK", Json.obj [("object",
       Json.obj [("type", Json.str "tag"), ("url", Json.str "OBJ"), ("sha", Json.str "s")])]⟩
     (Json.str "v1") (Json.str "tag") (Json.str "OBJ") rfl rfl rfl rfl rfl rfl rfl rfl rfl⟩
